import Mathlib

/-!
Verification of the research-and-extraction pipeline of the
langchain-competitor-analysis repository.

The definitions below are a shallow embedding of `backend/agent.py` and
`backend/scraper.py`.  Python strings are modelled as Lean `String`
(manipulated through their underlying `List Char`), Python dictionaries as
association lists, and Python `str.split`, `in`, `strip`, `startswith`,
`lower`, `replace` by executable Lean counterparts defined here.  Network
effects (HTTP fetches, the language-model call) are modelled as explicit
inputs: a fetch either succeeds with an abstract page value or fails with an
error message, exactly mirroring the `try`/`except requests.RequestException`
structure of the source.
-/

/-- Python whitespace characters stripped by `str.strip()` (ASCII range). -/
def isPyWS (c : Char) : Bool :=
  c = ' ' || c = '\t' || c = '\n' || c = '\r' || c = '\x0b' || c = '\x0c'

/-- Left strip, as in Python `str.lstrip()`. -/
def trimL (l : List Char) : List Char := l.dropWhile isPyWS

/-- Right strip, as in Python `str.rstrip()`. -/
def trimR (l : List Char) : List Char := (l.reverse.dropWhile isPyWS).reverse

/-- Python `str.strip()`. -/
def pyStrip (l : List Char) : List Char := trimR (trimL l)

/-- Split a character list at the first occurrence of `sep`, returning the
text before and after it, or `none` when `sep` does not occur.  This is the
common core of Python `sep in s`, `s.split(sep, 1)` and `s.split(sep)[0]`. -/
def splitOnFirst (sep : List Char) : List Char → Option (List Char × List Char)
  | [] => if sep.isPrefixOf ([] : List Char) then some ([], []) else none
  | c :: rest =>
    if sep.isPrefixOf (c :: rest) then some ([], (c :: rest).drop sep.length)
    else
      match splitOnFirst sep rest with
      | some (pre, post) => some (c :: pre, post)
      | none => none

/-- Python substring test `sub in s`. -/
def pyIn (sub s : String) : Bool := (splitOnFirst sub.data s.data).isSome

/-- Python `s.split(chr)` for a single-character separator (used by the
source as `analysis_text.split('\x5cn')`): keeps empty parts. -/
def splitLines : List Char → List (List Char)
  | [] => [[]]
  | c :: rest =>
    if c = '\n' then [] :: splitLines rest
    else
      match splitLines rest with
      | [] => [[c]]
      | line :: lines => (c :: line) :: lines

/-- Python `str.lower()`, character by character (`Char.toLower` covers the
ASCII letters, which is all the keyword tests of the source rely on). -/
def pyLower (s : String) : String := String.mk (s.data.map Char.toLower)

/-- Python `dict.get(key)` over an association-list model of a dict literal. -/
def dictGet {α : Type} (d : List (String × α)) (k : String) : Option α :=
  (d.find? (fun p => p.1 == k)).map (fun p => p.2)

/-- One structured competitor entry, as built by
`_extract_competitors_from_analysis` and `_get_default_competitors_as_objects`
in `backend/agent.py` (a Python dict with these exact keys). -/
structure CompetitorRecord where
  business_name : String
  url : String
  description : String
  services : String
  contact_info : String
  address : String
  pricing_info : String
  category : String
  location : String
  competitor_rank : Nat
deriving DecidableEq, Repr

/-- The `website_mapping` dict literal inside
`_extract_competitors_from_analysis` (`agent.py` lines 426-437). -/
def website_mapping_extract : List (String × String) :=
  [("Espresso Lounge F-7", "https://www.facebook.com/EspressoLoungeF7"),
   ("Coffee Wagera", "https://www.facebook.com/coffeewagera"),
   ("Café Lazeez", "https://www.facebook.com/cafelazeez"),
   ("Coffee Bean & Tea Leaf", "https://www.coffeebean.com.pk"),
   ("Beans & Brews", "https://www.facebook.com/beansandbrewsislamabad"),
   ("Dunkin' Donuts", "https://www.dunkindonuts.com.pk"),
   ("Gloria Jean's Coffees", "https://www.gloriajeans.com.pk"),
   ("Starbucks Pakistan", "https://www.starbucks.com.pk"),
   ("Monal Restaurant", "https://www.monal.pk"),
   ("Gold's Gym", "https://www.goldsgym.com.pk")]

/-- The `website_mapping` dict literal inside
`_get_default_competitors_as_objects` (`agent.py` lines 519-554). -/
def website_mapping_default : List (String × String) :=
  [("Espresso Lounge F-7", "https://www.facebook.com/EspressoLoungeF7"),
   ("Coffee Wagera", "https://www.facebook.com/coffeewagera"),
   ("Café Lazeez", "https://www.facebook.com/cafelazeez"),
   ("Coffee Bean & Tea Leaf", "https://www.coffeebean.com.pk"),
   ("Beans & Brews", "https://www.facebook.com/beansandbrewsislamabad"),
   ("Dunkin' Donuts", "https://www.dunkindonuts.com.pk"),
   ("Gloria Jean's Coffees", "https://www.gloriajeans.com.pk"),
   ("Starbucks Pakistan", "https://www.starbucks.com.pk"),
   ("Coffee Planet", "https://www.facebook.com/coffeeplanetpk"),
   ("Café Barbera", "https://www.barbera.com.pk"),
   ("English Tea House", "https://www.facebook.com/englishteahousepk"),
   ("Coffee & Co", "https://www.facebook.com/coffeeandco.pk"),
   ("Café Zouk", "https://www.cafezouk.com"),
   ("Mocca Coffee", "https://www.facebook.com/moccacoffeepk"),
   ("Café Aylanto", "https://www.facebook.com/cafeaylanto"),
   ("Monal Restaurant", "https://www.monal.pk"),
   ("Khyber Pass", "https://www.facebook.com/khyberpassrestaurant"),
   ("Des Pardes", "https://www.facebook.com/despardesrestaurant"),
   ("Burning Brownie", "https://www.burningbrownie.com"),
   ("Nadia Coffee Shop", "https://www.facebook.com/nadiacoffeeshop"),
   ("Gold's Gym", "https://www.goldsgym.com.pk"),
   ("FitnessPlanet", "https://www.facebook.com/fitnessplanetpk"),
   ("Body Zone", "https://www.facebook.com/bodyzoneislamabad"),
   ("Shape Fitness", "https://www.facebook.com/shapefitnessclub"),
   ("Oxygen Gym", "https://www.facebook.com/oxygengymislamabad")]

/-- The synthesized search-query URL used on a `website_mapping` miss:
Python `f"https://www.google.com/search?q=.."` with
`name.replace(' ', '+')`. -/
def searchUrl (name : String) : String :=
  "https://www.google.com/search?q=" ++ String.replace name " " "+"

/-- Website resolution in `_extract_competitors_from_analysis`:
`website_mapping.get(name, search-url)`. -/
def resolveWebsiteExtract (name : String) : String :=
  (dictGet website_mapping_extract name).getD (searchUrl name)

/-- Website resolution in `_get_default_competitors_as_objects`. -/
def resolveWebsiteDefault (name : String) : String :=
  (dictGet website_mapping_default name).getD (searchUrl name)

/-- The competitor dict built for one name in both record producers of
`agent.py` (the field values are identical in the two functions). -/
def mkCompetitor (name url businessIdea loc : String) (rank : Nat) :
    CompetitorRecord :=
  { business_name := name
    url := url
    description :=
      name ++ " is a well-known " ++ businessIdea ++ " business in " ++
        loc ++ "."
    services := "Professional " ++ businessIdea ++ " services"
    contact_info := "Visit website for contact details"
    address := loc
    pricing_info := "Visit website for current pricing"
    category := businessIdea
    location := loc
    competitor_rank := rank }

/-- The `for i, name in enumerate(names, 1)` record-building loop shared by
both producers; `k` counts the entries already emitted, so the next rank is
`k + 1`. -/
def buildRecords (resolve : String → String) (businessIdea loc : String) :
    Nat → List String → List CompetitorRecord
  | _, [] => []
  | k, name :: rest =>
    mkCompetitor name (resolve name) businessIdea loc (k + 1) ::
      buildRecords resolve businessIdea loc (k + 1) rest

/-- The `competitors_db` dict literal of `_get_default_competitors`
(`agent.py` lines 470-489). -/
def competitors_db : List (String × List (String × List String)) :=
  [("coffee",
    [("islamabad", ["Espresso Lounge F-7", "Coffee Wagera", "Café Lazeez",
       "Coffee Bean & Tea Leaf", "Beans & Brews"]),
     ("karachi", ["Dunkin' Donuts", "Gloria Jean's Coffees",
       "Starbucks Pakistan", "Coffee Planet", "Café Barbera"]),
     ("lahore", ["English Tea House", "Coffee & Co", "Café Zouk",
       "Mocca Coffee", "Café Aylanto"]),
     ("default", ["Brew & Bean Café", "The Daily Grind", "Espresso Corner",
       "Café Central", "Morning Roast Coffee"])]),
   ("restaurant",
    [("islamabad", ["Monal Restaurant", "Khyber Pass", "Des Pardes",
       "Burning Brownie", "Nadia Coffee Shop"]),
     ("karachi", ["Do Darya", "Kolachi", "BBQ Tonight", "Café Flo",
       "Sakura Japanese Restaurant"]),
     ("lahore", ["Haveli Restaurant", "Cooco's Den", "Salt'n Pepper",
       "Bundu Khan", "Café Zouk"]),
     ("default", ["The Local Bistro", "Family Kitchen", "Taste of Home",
       "Downtown Diner", "Fresh Garden Restaurant"])]),
   ("gym",
    [("islamabad", ["Gold's Gym", "FitnessPlanet", "Body Zone",
       "Shape Fitness", "Oxygen Gym"]),
     ("karachi", ["Shapes Gymnasium", "Fitness One", "Flex Gym",
       "Champion Gym", "Energy Fitness"]),
     ("lahore", ["Gym 4U", "Body Shapers", "Fitness Club", "Power Zone",
       "Elite Fitness"]),
     ("default", ["PowerHouse Fitness", "Elite Gym", "FitZone",
       "Iron Paradise", "Body Builders Gym"])])]

/-- `_get_default_competitors(business_idea, location)` from `agent.py`
lines 464-511.  Python indexes `category_competitors["default"]` directly;
the `"default"` key is present in every category dict, so the `.getD []`
below is an artifact of totality, never reached. -/
def _get_default_competitors (businessIdea loc : String) : List String :=
  let business_type := pyLower businessIdea
  let location_lower := pyLower loc
  let category :=
    if pyIn "coffee" business_type || pyIn "café" business_type then "coffee"
    else if pyIn "restaurant" business_type || pyIn "food" business_type then
      "restaurant"
    else if pyIn "gym" business_type || pyIn "fitness" business_type then "gym"
    else "default"
  let category_competitors :=
    (dictGet competitors_db category).getD
      ((dictGet competitors_db "coffee").getD [])
  if pyIn "islamabad" location_lower then
    (dictGet category_competitors "islamabad").getD
      ((dictGet category_competitors "default").getD [])
  else if pyIn "karachi" location_lower then
    (dictGet category_competitors "karachi").getD
      ((dictGet category_competitors "default").getD [])
  else if pyIn "lahore" location_lower then
    (dictGet category_competitors "lahore").getD
      ((dictGet category_competitors "default").getD [])
  else (dictGet category_competitors "default").getD []

/-- `_get_default_competitors_as_objects(business_idea, location)` from
`agent.py` lines 513-574: every default name becomes a record, with ranks
from `enumerate(competitor_names, 1)`. -/
def _get_default_competitors_as_objects (businessIdea loc : String) :
    List CompetitorRecord :=
  buildRecords resolveWebsiteDefault businessIdea loc 0
    (_get_default_competitors businessIdea loc)

/-- Processing of one line of the analysis narrative by the reverse parser
(`agent.py` lines 395-417): strip the line; keep it only when it starts with
a digit or a bullet; take the text after the first `". "` (else `"• "`);
cut the name at the first `" - "` (else `" ("`); strip; keep names longer
than 2 characters. -/
def parseLine (rawLine : List Char) : Option (List Char) :=
  let line := pyStrip rawLine
  match line with
  | [] => none
  | c :: _ =>
    if c.isDigit || c = '•' then
      match
        (match splitOnFirst ['.', ' '] line with
         | some (_, post) => some post
         | none =>
           match splitOnFirst ['•', ' '] line with
           | some (_, post) => some post
           | none => none) with
      | none => none
      | some namePart =>
        let competitorName :=
          match splitOnFirst [' ', '-', ' '] namePart with
          | some (pre, _) => pyStrip pre
          | none =>
            match splitOnFirst [' ', '('] namePart with
            | some (pre, _) => pyStrip pre
            | none => pyStrip namePart
        if competitorName.length > 2 then some competitorName else none
    else none

/-- The name-collection loop of `_extract_competitors_from_analysis`:
split the narrative into lines and collect every surviving name in order. -/
def extractCompetitorNames (analysisText : String) : List String :=
  ((splitLines analysisText.data).filterMap parseLine).map String.mk

/-- `_extract_competitors_from_analysis(analysis_text, business_idea,
location)` from `agent.py` lines 385-462: parse names from the narrative,
fall back to `_get_default_competitors` when none survive, then build
records for the first 5 names with ranks `1..N`. -/
def _extract_competitors_from_analysis
    (analysisText businessIdea loc : String) : List CompetitorRecord :=
  let competitor_names := extractCompetitorNames analysisText
  let competitor_names :=
    if competitor_names.isEmpty then _get_default_competitors businessIdea loc
    else competitor_names
  buildRecords resolveWebsiteExtract businessIdea loc 0
    (competitor_names.take 5)

/-- The `competitors_db` dict literal of `_generate_mock_competitors`
(`agent.py` lines 143-168).  Unlike `_get_default_competitors` it has a
`"retail"` category and uses the key `"generic"` for the location fallback. -/
def mock_competitors_db : List (String × List (String × List String)) :=
  [("coffee",
    [("generic", ["Brew & Bean Café", "The Daily Grind", "Espresso Corner",
       "Café Central", "Morning Roast Coffee"]),
     ("islamabad", ["Espresso Lounge F-7", "Coffee Wagera", "Café Lazeez",
       "Coffee Bean & Tea Leaf", "Beans & Brews"]),
     ("karachi", ["Dunkin' Donuts", "Gloria Jean's Coffees",
       "Starbucks Pakistan", "Coffee Planet", "Café Barbera"]),
     ("lahore", ["English Tea House", "Coffee & Co", "Café Zouk",
       "Mocca Coffee", "Café Aylanto"])]),
   ("restaurant",
    [("generic", ["The Local Bistro", "Family Kitchen", "Taste of Home",
       "Downtown Diner", "Fresh Garden Restaurant"]),
     ("islamabad", ["Monal Restaurant", "Khyber Pass", "Des Pardes",
       "Burning Brownie", "Nadia Coffee Shop"]),
     ("karachi", ["Do Darya", "Kolachi", "BBQ Tonight", "Café Flo",
       "Sakura Japanese Restaurant"]),
     ("lahore", ["Haveli Restaurant", "Cooco's Den", "Salt'n Pepper",
       "Bundu Khan", "Café Zouk"])]),
   ("gym",
    [("generic", ["PowerHouse Fitness", "Elite Gym", "FitZone",
       "Iron Paradise", "Body Builders Gym"]),
     ("islamabad", ["Gold's Gym", "FitnessPlanet", "Body Zone",
       "Shape Fitness", "Oxygen Gym"]),
     ("karachi", ["Shapes Gymnasium", "Fitness One", "Flex Gym",
       "Champion Gym", "Energy Fitness"]),
     ("lahore", ["Gym 4U", "Body Shapers", "Fitness Club", "Power Zone",
       "Elite Fitness"])]),
   ("retail",
    [("generic", ["City Store", "Fashion Hub", "The Shopping Corner",
       "Retail Plus", "Market Place"]),
     ("islamabad", ["Centaurus Mall", "Giga Mall", "Safa Gold Mall",
       "Beverly Center", "Capitol Complex"]),
     ("karachi", ["Dolmen Mall", "Lucky One Mall", "Ocean Mall",
       "Park Towers", "Millennium Mall"]),
     ("lahore", ["Packages Mall", "Emporium Mall", "Mall of Lahore",
       "Fortress Square", "Pace Shopping Mall"])])]

/-- The ranked-line loop of `_generate_mock_competitors`:
`f"{i}. {comp_name} - Established {business_type} serving {location}"`
for `i, comp_name in enumerate(city_competitors[:5], 1)`. -/
def mockCompetitorLines (business_type loc : String) :
    Nat → List String → List String
  | _, [] => []
  | k, name :: rest =>
    (toString (k + 1) ++ ". " ++ name ++ " - Established " ++ business_type ++
        " serving " ++ loc) ::
      mockCompetitorLines business_type loc (k + 1) rest

/-- The observable outcome of `_generate_mock_competitors(query)`
(`agent.py` lines 134-230): the classified business type and location, the
chosen city competitor list, and the ranked competitor lines that the
returned `mock_results` narrative embeds (joined with `chr(10)` under the
`MAJOR COMPETITORS IDENTIFIED:` heading; the rest of the narrative is fixed
market-characteristics boilerplate parameterized only by these fields). -/
structure MockCompetitors where
  business_type : String
  mock_location : String
  city_competitors : List String
  competitor_list : List String
deriving DecidableEq, Repr

/-- `_generate_mock_competitors(query)` from `agent.py` lines 134-230. -/
def _generate_mock_competitors (query : String) : MockCompetitors :=
  let query_lower := pyLower query
  let pick :=
    if pyIn "coffee" query_lower || pyIn "café" query_lower ||
        pyIn "cafe" query_lower then
      ("coffee shop", (dictGet mock_competitors_db "coffee").getD [])
    else if pyIn "restaurant" query_lower || pyIn "food" query_lower ||
        pyIn "dining" query_lower then
      ("restaurant", (dictGet mock_competitors_db "restaurant").getD [])
    else if pyIn "gym" query_lower || pyIn "fitness" query_lower then
      ("fitness center", (dictGet mock_competitors_db "gym").getD [])
    else if pyIn "retail" query_lower || pyIn "store" query_lower ||
        pyIn "shop" query_lower then
      ("retail store", (dictGet mock_competitors_db "retail").getD [])
    else ("business", (dictGet mock_competitors_db "coffee").getD [])
  let business_type := pick.1
  let competitors := pick.2
  let generic := (dictGet competitors "generic").getD []
  let city :=
    if pyIn "islamabad" query_lower then
      ("Islamabad", (dictGet competitors "islamabad").getD generic)
    else if pyIn "karachi" query_lower then
      ("Karachi", (dictGet competitors "karachi").getD generic)
    else if pyIn "lahore" query_lower then
      ("Lahore", (dictGet competitors "lahore").getD generic)
    else ("local area", generic)
  let loc := city.1
  let city_competitors := city.2
  { business_type := business_type
    mock_location := loc
    city_competitors := city_competitors
    competitor_list :=
      mockCompetitorLines business_type loc 0 (city_competitors.take 5) }

/-- The outcome of `self.agent.run(research_prompt)` inside
`research_competitors`: either the final analysis narrative, or an
exception carrying its message (the `except Exception` branch). -/
inductive RunOutcome where
  | ok (analysis : String)
  | exc (msg : String)
deriving DecidableEq, Repr

/-- The dictionary returned by `research_competitors` (`agent.py` lines
328-383); the optional `error` key is only present in the except branch,
and `raw_response` duplicates `analysis` in the success branch. -/
structure ResearchResult where
  status : String
  business_idea : String
  res_location : String
  competitors : List CompetitorRecord
  analysis : String
  error : Option String
deriving DecidableEq, Repr

/-- `research_competitors(business_idea, location)` from `agent.py` lines
328-383, with the `agent.run` network call abstracted into an explicit
`RunOutcome` input.  Everything after `agent.run` in the `try` block
(`_extract_competitors_from_analysis`) is total in this embedding, exactly
as in the source, where it catches its own exceptions internally. -/
def research_competitors (runOutcome : RunOutcome)
    (businessIdea loc : String) : ResearchResult :=
  match runOutcome with
  | RunOutcome.ok analysisResult =>
    { status := "success"
      business_idea := businessIdea
      res_location := loc
      competitors :=
        _extract_competitors_from_analysis analysisResult businessIdea loc
      analysis := analysisResult
      error := none }
  | RunOutcome.exc msg =>
    { status := "error"
      business_idea := businessIdea
      res_location := loc
      competitors := []
      analysis := "Error occurred during research: " ++ msg
      error := some msg }

/-- Outcome of the HTTP fetch in `WebScraper.scrape_website`
(`backend/scraper.py` lines 51-89): either a parsed page (abstracted, since
no claim depends on the per-field heuristics of lines 91-253) or a
`requests.RequestException` message, which covers timeouts, connection
errors and, through `raise_for_status()`, non-2xx responses. -/
inductive FetchOutcome (Html : Type) where
  | success (page : Html)
  | failure (errMsg : String)

/-- The six heuristically extracted business fields of a successful scrape;
the extraction heuristics themselves are abstracted as a function
`Html → String → ExtractedFields` (page and url). -/
structure ExtractedFields where
  business_name : String
  description : String
  services : String
  contact_info : String
  address : String
  pricing_info : String
deriving DecidableEq, Repr

/-- The dictionary returned by `WebScraper.scrape_website`; the `error` key
is present only on a failed fetch. -/
structure ScrapeResult where
  url : String
  business_name : String
  description : String
  services : String
  contact_info : String
  address : String
  pricing_info : String
  error : Option String
deriving DecidableEq, Repr

/-- `WebScraper.scrape_website(url)` from `scraper.py` lines 41-89, with
the network fetch abstracted into a `FetchOutcome` input.  The
`except requests.RequestException` branch is modelled exactly; the
`time.sleep` throttle and session headers have no observable effect on the
returned dictionary and are not modelled. -/
def scrape_website {Html : Type} (extract : Html → String → ExtractedFields)
    (url : String) (outcome : FetchOutcome Html) : ScrapeResult :=
  match outcome with
  | FetchOutcome.success page =>
    let f := extract page url
    { url := url
      business_name := f.business_name
      description := f.description
      services := f.services
      contact_info := f.contact_info
      address := f.address
      pricing_info := f.pricing_info
      error := none }
  | FetchOutcome.failure errMsg =>
    { url := url
      business_name := "Unknown"
      description := "Unable to extract information"
      services := "Unable to extract services"
      contact_info := "Not available"
      address := "Not available"
      pricing_info := "Not available"
      error := some ("Failed to scrape: " ++ errMsg) }

/-- URL normalization at the top of the `scrape_competitor_list` loop:
`if not url.startswith(('http://', 'https://')): url = 'https://' + url`. -/
def normalize_url (url : String) : String :=
  if url.startsWith "http://" || url.startsWith "https://" then url
  else "https://" ++ url

/-- `scrape_competitor_list(urls)` from `scraper.py` lines 256-291, with
each URL paired with the outcome of fetching its normalized form.  The
surrounding per-URL `try`/`except` of lines 270-289 is unreachable in this
embedding because `scrape_website` already converts every fetch failure
into an error record and raises nothing else. -/
def scrape_competitor_list {Html : Type}
    (extract : Html → String → ExtractedFields) :
    List (String × FetchOutcome Html) → List ScrapeResult
  | [] => []
  | (url, outcome) :: rest =>
    scrape_website extract (normalize_url url) outcome ::
      scrape_competitor_list extract rest

/-- One decision of the language model inside the LangChain executor loop:
either emit the final answer or invoke a named tool on an input. -/
inductive AgentStep where
  | finish (answer : String)
  | toolCall (tool : String) (input : String)

/-- Modelled from the spec: the tool-calling loop of the LangChain
`AgentExecutor` is library code, not part of this repository's sources;
`backend/agent.py` only configures it (`initialize_agent(...,
max_iterations=10, ...)` in `_setup_agent`, lines 81-91).  Following spec
section 4.1, the loop consults the model (here an arbitrary `policy` over
the accumulated history of tool invocations), runs the requested tool and
appends the observation, and stops on a final answer or when the iteration
budget is exhausted, in which case no final answer is produced. -/
def agent_loop (policy : List (String × String) → AgentStep) :
    Nat → List (String × String) → List (String × String) × Option String
  | 0, history => (history, none)
  | fuel + 1, history =>
    match policy history with
    | AgentStep.finish answer => (history, some answer)
    | AgentStep.toolCall tool input =>
      agent_loop policy fuel (history ++ [(tool, input)])

/-- The `max_iterations=10` bound passed to `initialize_agent` in
`_setup_agent` (`agent.py` line 89). -/
def max_iterations : Nat := 10

/-- Canonical narrative line `"{rank}. {name} - {description}"` from the
spec's idempotence property (spec section 8), as character list. -/
def canonLine (rank : Nat) (name description : List Char) : List Char :=
  (toString rank).data ++ '.' :: ' ' :: (name ++ ' ' :: '-' :: ' ' :: description)

/-- Canonical narrative lines for a record list, ranked `1..N` in order
(`k` counts the records already formatted). -/
def canonLines : Nat → List (String × String) → List (List Char)
  | _, [] => []
  | k, (name, description) :: rest =>
    canonLine (k + 1) name.data description.data :: canonLines (k + 1) rest

/-- Join lines with the newline separator (the inverse of `splitLines` on
newline-free lines). -/
def joinLines : List (List Char) → List Char
  | [] => []
  | [line] => line
  | line :: next :: rest => line ++ '\n' :: joinLines (next :: rest)

/-- A narrative built from `N` records, each on its own line in the
canonical `"{rank}. {name} - {description}"` format of spec section 8. -/
def buildNarrative (records : List (String × String)) : String :=
  String.mk (joinLines (canonLines 0 records))

/-- A name that passes the well-formedness side conditions of the amended
round-trip property: longer than 2 characters, carrying no surrounding
whitespace, containing no embedded `" - "` separator, not ending in `" -"`,
and free of newlines. -/
def goodName (n : List Char) : Bool :=
  decide (2 < n.length) && trimL n == n && trimR n == n &&
    !(splitOnFirst [' ', '-', ' '] n).isSome &&
    !(List.isSuffixOf [' ', '-'] n) && !(n.contains '\n')

/-- A description usable in a canonical narrative line: non-empty, carrying
no surrounding whitespace, and free of newlines. -/
def goodDesc (d : List Char) : Bool :=
  !(d.isEmpty) && trimL d == d && trimR d == d && !(d.contains '\n')

/-- A narrative line that the reverse parser's candidate filter rejects:
after stripping it is empty, or it starts with neither a digit nor the
bullet marker. -/
def noCandidate (l : List Char) : Bool :=
  match pyStrip l with
  | [] => true
  | c :: _ => !(c.isDigit || c = '•')

/-! ## Supporting lemmas -/

theorem buildRecords_length (resolve : String → String) (b l : String)
    (k : Nat) (names : List String) :
    (buildRecords resolve b l k names).length = names.length := by
  induction names generalizing k with
  | nil => rfl
  | cons name rest ih => simp [buildRecords, ih]

theorem buildRecords_map_rank (resolve : String → String) (b l : String)
    (k : Nat) (names : List String) :
    (buildRecords resolve b l k names).map (fun r => r.competitor_rank) =
      List.range' (k + 1) names.length := by
  induction names generalizing k with
  | nil => rfl
  | cons name rest ih =>
    simp [buildRecords, mkCompetitor, List.range'_succ, ih]

theorem buildRecords_map_name (resolve : String → String) (b l : String)
    (k : Nat) (names : List String) :
    (buildRecords resolve b l k names).map (fun r => r.business_name) =
      names := by
  induction names generalizing k with
  | nil => rfl
  | cons name rest ih => simp [buildRecords, mkCompetitor, ih]

theorem buildRecords_map_url (resolve : String → String) (b l : String)
    (k : Nat) (names : List String) :
    (buildRecords resolve b l k names).map (fun r => r.url) =
      names.map resolve := by
  induction names generalizing k with
  | nil => rfl
  | cons name rest ih => simp [buildRecords, mkCompetitor, ih]

theorem get_default_competitors_length (b l : String) :
    (_get_default_competitors b l).length = 5 := by
  unfold _get_default_competitors
  dsimp only
  repeat' split
  all_goals rfl

theorem agent_loop_length (policy : List (String × String) → AgentStep)
    (fuel : Nat) (history : List (String × String)) :
    (agent_loop policy fuel history).1.length ≤ history.length + fuel := by
  induction fuel generalizing history with
  | zero => simp [agent_loop]
  | succ n ih =>
    cases hp : policy history with
    | finish answer => simp [agent_loop, hp]
    | toolCall tool input =>
      have h2 := ih (history ++ [(tool, input)])
      simp only [agent_loop, hp]
      simp at h2
      omega

theorem dropWhile_cons_self {p : Char → Bool} {b : Char} {l : List Char}
    (h : List.dropWhile p (b :: l) = b :: l) : p b = false := by
  by_cases hb : p b = true
  · rw [List.dropWhile_cons, if_pos hb] at h
    have hlen := congrArg List.length h
    have : (List.dropWhile p l).length ≤ l.length :=
      (List.dropWhile_sublist p).length_le
    simp at hlen
    omega
  · simpa using hb

theorem trimL_cons {c : Char} {l : List Char} (h : isPyWS c = false) :
    trimL (c :: l) = c :: l := by
  simp [trimL, List.dropWhile_cons, h]

theorem trimR_eq_self_iff_rev {l : List Char} :
    trimR l = l ↔ List.dropWhile isPyWS l.reverse = l.reverse := by
  constructor
  · intro h
    have := congrArg List.reverse h
    simpa [trimR] using this
  · intro h
    simp [trimR, h]

theorem trimR_append {xs d : List Char} (hd : trimR d = d) (hne : d ≠ []) :
    trimR (xs ++ d) = xs ++ d := by
  rw [trimR_eq_self_iff_rev] at hd ⊢
  rw [List.reverse_append]
  rcases hr : d.reverse with _ | ⟨b, bs⟩
  · exact absurd (by simpa using congrArg List.reverse hr) hne
  · rw [hr] at hd
    have hb : isPyWS b = false := dropWhile_cons_self hd
    simp [List.dropWhile_cons, hb]

theorem trimR_cons_tail {c : Char} {l : List Char} (h : trimR (c :: l) = c :: l) :
    trimR l = l := by
  rcases hl : l.reverse with _ | ⟨b, bs⟩
  · have : l = [] := by simpa using congrArg List.reverse hl
    simp [this, trimR]
  · rw [trimR_eq_self_iff_rev] at h ⊢
    rw [show (c :: l).reverse = l.reverse ++ [c] by simp, hl] at h
    have hb : isPyWS b = false := by
      apply dropWhile_cons_self (l := bs ++ [c])
      simpa using h
    rw [hl]
    simp [List.dropWhile_cons, hb]

theorem splitOnFirst_hit {sep l : List Char}
    (h : sep.isPrefixOf l = true) :
    splitOnFirst sep l = some ([], l.drop sep.length) := by
  cases l with
  | nil => simp [splitOnFirst, h]
  | cons c rest => simp [splitOnFirst, h]

theorem splitOnFirst_cons_miss {sep : List Char} {c : Char}
    {rest : List Char} (h : sep.isPrefixOf (c :: rest) = false) :
    splitOnFirst sep (c :: rest) =
      match splitOnFirst sep rest with
      | some (pre, post) => some (c :: pre, post)
      | none => none := by
  simp [splitOnFirst, h]

theorem splitOnFirst_cons_none {sep : List Char} {c : Char} {rest : List Char}
    (h : splitOnFirst sep (c :: rest) = none) :
    sep.isPrefixOf (c :: rest) = false ∧ splitOnFirst sep rest = none := by
  by_cases hp : sep.isPrefixOf (c :: rest) = true
  · rw [splitOnFirst_hit hp] at h
    exact absurd h (by simp)
  · have hp' : sep.isPrefixOf (c :: rest) = false := Bool.eq_false_iff.mpr hp
    rw [splitOnFirst_cons_miss hp'] at h
    rcases hi : splitOnFirst sep rest with _ | ⟨pre, post⟩
    · exact ⟨hp', rfl⟩
    · rw [hi] at h
      exact absurd h (by simp)

theorem splitOnFirst_isSome_middle (sep a c : List Char) :
    (splitOnFirst sep (a ++ sep ++ c)).isSome = true := by
  induction a with
  | nil =>
    have hp : sep.isPrefixOf (sep ++ c) = true :=
      List.isPrefixOf_iff_prefix.mpr (List.prefix_append sep c)
    simp [splitOnFirst_hit hp]
  | cons x xs ih =>
    rw [show (x :: xs) ++ sep ++ c = x :: (xs ++ sep ++ c) by simp]
    by_cases hp : sep.isPrefixOf (x :: (xs ++ sep ++ c)) = true
    · rw [splitOnFirst_hit hp]
      rfl
    · have hp' : sep.isPrefixOf (x :: (xs ++ sep ++ c)) = false :=
        Bool.eq_false_iff.mpr hp
      rw [splitOnFirst_cons_miss hp']
      rcases hi : splitOnFirst sep (xs ++ sep ++ c) with _ | ⟨pre, post⟩
      · rw [hi] at ih
        exact absurd ih (by simp)
      · simp

theorem isPrefixOf_cons_false {a b : Char} {s t : List Char}
    (h : (a == b) = false) : List.isPrefixOf (a :: s) (b :: t) = false := by
  simp [List.isPrefixOf, h]

theorem isPrefixOf_cons_step (a : Char) (s t : List Char) :
    List.isPrefixOf (a :: s) (a :: t) = List.isPrefixOf s t := by
  simp [List.isPrefixOf]

theorem isPyWS_eq_false_of_isDigit {r : Char} (h : r.isDigit = true) :
    isPyWS r = false := by
  simp only [isPyWS, Bool.or_eq_false_iff, decide_eq_false_iff_not]
  repeat' apply And.intro
  all_goals rintro rfl
  all_goals exact absurd h (by decide)

theorem ne_dot_of_isDigit {r : Char} (h : r.isDigit = true) : r ≠ '.' := by
  intro he
  subst he
  exact absurd h (by decide)

theorem ne_nl_of_isDigit {r : Char} (h : r.isDigit = true) : r ≠ '\n' := by
  intro he
  subst he
  exact absurd h (by decide)

theorem splitOnFirst_sep_append {n : List Char} (d : List Char)
    (hsub : splitOnFirst [' ', '-', ' '] n = none)
    (hsuf : List.isSuffixOf [' ', '-'] n = false)
    (hlast : trimR n = n) :
    splitOnFirst [' ', '-', ' '] (n ++ ' ' :: '-' :: ' ' :: d) =
      some (n, d) := by
  induction n with
  | nil =>
    have hp : List.isPrefixOf [' ', '-', ' '] (' ' :: '-' :: ' ' :: d) = true := by
      simp [List.isPrefixOf]
    rw [List.nil_append, splitOnFirst_hit hp]
    rfl
  | cons c n' ih =>
    have hparts := splitOnFirst_cons_none hsub
    have hsub' : splitOnFirst [' ', '-', ' '] n' = none := hparts.2
    have hsuf' : List.isSuffixOf [' ', '-'] n' = false := by
      cases hs : List.isSuffixOf [' ', '-'] n'
      · rfl
      · exfalso
        have : List.isSuffixOf [' ', '-'] (c :: n') = true :=
          List.isSuffixOf_iff_suffix.mpr
            ((List.isSuffixOf_iff_suffix.mp hs).trans (List.suffix_cons c n'))
        rw [this] at hsuf
        exact absurd hsuf (by simp)
    have hlast' : trimR n' = n' := trimR_cons_tail hlast
    have hnotpre :
        List.isPrefixOf [' ', '-', ' ']
          (c :: (n' ++ ' ' :: '-' :: ' ' :: d)) = false := by
      by_cases hc : c = ' '
      · subst hc
        rcases n' with _ | ⟨c2, n''⟩
        · exact absurd hlast (by decide)
        · rw [List.cons_append, isPrefixOf_cons_step]
          by_cases hc2 : c2 = '-'
          · subst hc2
            rcases n'' with _ | ⟨c3, n'''⟩
            · exact absurd hsuf (by decide)
            · rw [List.cons_append, isPrefixOf_cons_step]
              by_cases hc3 : c3 = ' '
              · subst hc3
                exfalso
                have hp : List.isPrefixOf [' ', '-', ' ']
                    (' ' :: '-' :: ' ' :: n''') = true := by
                  simp [List.isPrefixOf]
                rw [splitOnFirst_hit hp] at hsub
                exact absurd hsub (by simp)
              · exact isPrefixOf_cons_false
                  (beq_eq_false_iff_ne.mpr fun he => hc3 he.symm)
          · exact isPrefixOf_cons_false
              (beq_eq_false_iff_ne.mpr fun he => hc2 he.symm)
      · exact isPrefixOf_cons_false
          (beq_eq_false_iff_ne.mpr fun he => hc he.symm)
    rw [List.cons_append, splitOnFirst_cons_miss hnotpre,
      ih hsub' hsuf' hlast']

theorem pyStrip_canon_line {r : Char} {n d : List Char}
    (hr : r.isDigit = true) (hdTR : trimR d = d) (hdne : d ≠ []) :
    pyStrip (r :: '.' :: ' ' :: (n ++ ' ' :: '-' :: ' ' :: d)) =
      r :: '.' :: ' ' :: (n ++ ' ' :: '-' :: ' ' :: d) := by
  have hrws : isPyWS r = false := isPyWS_eq_false_of_isDigit hr
  have hshape : r :: '.' :: ' ' :: (n ++ ' ' :: '-' :: ' ' :: d) =
      (r :: '.' :: ' ' :: (n ++ [' ', '-', ' '])) ++ d := by
    simp
  rw [pyStrip, trimL_cons hrws, hshape, trimR_append hdTR hdne]

theorem parseLine_canon {r : Char} {n d : List Char}
    (hr : r.isDigit = true) (hn : goodName n = true) (hd : goodDesc d = true) :
    parseLine (r :: '.' :: ' ' :: (n ++ ' ' :: '-' :: ' ' :: d)) = some n := by
  simp only [goodName, Bool.and_eq_true] at hn
  obtain ⟨⟨⟨⟨⟨hlen, hTL⟩, hTR⟩, hsub⟩, hsuf⟩, hnl⟩ := hn
  simp only [goodDesc, Bool.and_eq_true] at hd
  obtain ⟨⟨⟨hdne, hdTL⟩, hdTR⟩, hdnl⟩ := hd
  have hlen' : 2 < n.length := by simpa using hlen
  have hTL' : trimL n = n := by simpa using hTL
  have hTR' : trimR n = n := by simpa using hTR
  have hsub' : splitOnFirst [' ', '-', ' '] n = none := by
    rcases hcase : splitOnFirst [' ', '-', ' '] n with _ | v
    · rfl
    · rw [hcase] at hsub
      exact absurd hsub (by simp)
  have hsuf' : List.isSuffixOf [' ', '-'] n = false := by
    cases hcase : List.isSuffixOf [' ', '-'] n
    · rfl
    · rw [hcase] at hsuf
      exact absurd hsuf (by simp)
  have hdne' : d ≠ [] := by
    cases d
    · exact absurd hdne (by simp)
    · simp
  have hdTR' : trimR d = d := by simpa using hdTR
  have hstrip := pyStrip_canon_line (n := n) hr hdTR' hdne'
  have hnp : List.isPrefixOf ['.', ' ']
      (r :: '.' :: ' ' :: (n ++ ' ' :: '-' :: ' ' :: d)) = false := by
    have : (('.' : Char) == r) = false :=
      beq_eq_false_iff_ne.mpr (fun h => ne_dot_of_isDigit hr h.symm)
    simp [List.isPrefixOf, this]
  have hdot : splitOnFirst ['.', ' ']
      (r :: '.' :: ' ' :: (n ++ ' ' :: '-' :: ' ' :: d)) =
      some ([r], n ++ ' ' :: '-' :: ' ' :: d) := by
    rw [splitOnFirst_cons_miss hnp]
    have hp2 : List.isPrefixOf ['.', ' ']
        ('.' :: ' ' :: (n ++ ' ' :: '-' :: ' ' :: d)) = true := by
      simp [List.isPrefixOf]
    rw [splitOnFirst_hit hp2]
    rfl
  have hdash := splitOnFirst_sep_append (n := n) d hsub' hsuf' hTR'
  rw [parseLine]
  simp only [hstrip]
  rw [if_pos (by rw [hr]; rfl)]
  simp only [hdot, hdash]
  rw [pyStrip, hTL', hTR']
  rw [if_pos (by simpa using hlen')]

theorem splitLines_no_nl {x : List Char} (h : '\n' ∉ x) :
    splitLines x = [x] := by
  induction x with
  | nil => rfl
  | cons c rest ih =>
    have hc : ¬(c = '\n') := fun he => h (he ▸ List.mem_cons_self c rest)
    have hrest : '\n' ∉ rest := fun hm => h (List.mem_cons_of_mem c hm)
    rw [splitLines, if_neg hc, ih hrest]

theorem splitLines_append {x : List Char} (z : List Char) (h : '\n' ∉ x) :
    splitLines (x ++ '\n' :: z) = x :: splitLines z := by
  induction x with
  | nil =>
    rw [List.nil_append, splitLines, if_pos rfl]
  | cons c rest ih =>
    have hc : ¬(c = '\n') := fun he => h (he ▸ List.mem_cons_self c rest)
    have hrest : '\n' ∉ rest := fun hm => h (List.mem_cons_of_mem c hm)
    rw [List.cons_append, splitLines, if_neg hc, ih hrest]

theorem splitLines_joinLines {ls : List (List Char)} (hne : ls ≠ [])
    (h : ∀ x ∈ ls, '\n' ∉ x) : splitLines (joinLines ls) = ls := by
  induction ls with
  | nil => exact absurd rfl hne
  | cons x rest ih =>
    cases rest with
    | nil =>
      rw [joinLines, splitLines_no_nl (h x (List.mem_cons_self x []))]
    | cons y rest' =>
      rw [joinLines,
        splitLines_append _ (h x (List.mem_cons_self x (y :: rest'))),
        ih (by simp) (fun a ha => h a (List.mem_cons_of_mem x ha))]

theorem repr_digit (k : Nat) (h : k < 5) :
    ∃ rc : Char, (toString (k + 1)).data = [rc] ∧ rc.isDigit = true := by
  interval_cases k
  · exact ⟨'1', by decide, by decide⟩
  · exact ⟨'2', by decide, by decide⟩
  · exact ⟨'3', by decide, by decide⟩
  · exact ⟨'4', by decide, by decide⟩
  · exact ⟨'5', by decide, by decide⟩

theorem canonLines_parse (records : List (String × String)) :
    ∀ k : Nat, k + records.length ≤ 5 →
    (∀ r ∈ records, goodName r.1.data = true) →
    (∀ r ∈ records, goodDesc r.2.data = true) →
    (canonLines k records).filterMap parseLine =
        records.map (fun r => r.1.data) ∧
      ∀ line ∈ canonLines k records, '\n' ∉ line := by
  induction records with
  | nil => intro k _ _ _; exact ⟨rfl, by simp [canonLines]⟩
  | cons rec rest ih =>
    intro k hk hn hd
    obtain ⟨name, desc⟩ := rec
    obtain ⟨rc, hrc, hrcdig⟩ := repr_digit k (by simp at hk; omega)
    have hgn : goodName name.data = true := hn _ (List.mem_cons_self _ _)
    have hgd : goodDesc desc.data = true := hd _ (List.mem_cons_self _ _)
    have hline : canonLine (k + 1) name.data desc.data =
        rc :: '.' :: ' ' :: (name.data ++ ' ' :: '-' :: ' ' :: desc.data) := by
      rw [canonLine, hrc]
      rfl
    have hparse : parseLine (canonLine (k + 1) name.data desc.data) =
        some name.data := by
      rw [hline]
      exact parseLine_canon hrcdig hgn hgd
    have hih := ih (k + 1) (by simp at hk ⊢; omega)
      (fun r hr => hn r (List.mem_cons_of_mem _ hr))
      (fun r hr => hd r (List.mem_cons_of_mem _ hr))
    constructor
    · rw [canonLines, List.filterMap_cons, hparse, List.map_cons, hih.1]
    · intro line hmem
      rw [canonLines] at hmem
      rcases List.mem_cons.mp hmem with he | hm
      · subst he
        rw [hline]
        have hnn : '\n' ∉ name.data := by
          simp only [goodName, Bool.and_eq_true] at hgn
          have := hgn.2
          simpa using this
        have hnd : '\n' ∉ desc.data := by
          simp only [goodDesc, Bool.and_eq_true] at hgd
          have := hgd.2
          simpa using this
        simp only [List.mem_cons, List.mem_append]
        rintro (he | he | he | hm2)
        · exact ne_nl_of_isDigit hrcdig he.symm
        · exact absurd he.symm (by decide)
        · exact absurd he.symm (by decide)
        · rcases hm2 with hm3 | he | he | he | hm3
          · exact hnn hm3
          · exact absurd he (by decide)
          · exact absurd he (by decide)
          · exact absurd he (by decide)
          · exact hnd hm3
      · exact hih.2 line hm

theorem parseLine_eq_none_of_noCandidate {l : List Char}
    (h : noCandidate l = true) : parseLine l = none := by
  rw [parseLine]
  rw [noCandidate] at h
  rcases hs : pyStrip l with _ | ⟨c, rest⟩
  · simp [hs]
  · rw [hs] at h
    have h' : (c.isDigit || (c = '•' : Bool)) = false := by simpa using h
    simp [hs, h']

theorem extract_names_buildNarrative (records : List (String × String))
    (hne : records ≠ []) (hlen : records.length ≤ 5)
    (hn : ∀ r ∈ records, goodName r.1.data = true)
    (hd : ∀ r ∈ records, goodDesc r.2.data = true) :
    extractCompetitorNames (buildNarrative records) =
      records.map (fun r => r.1) := by
  have hparse := canonLines_parse records 0 (by simpa using hlen) hn hd
  have hcne : canonLines 0 records ≠ [] := by
    cases records
    · exact absurd rfl hne
    · simp [canonLines]
  rw [extractCompetitorNames]
  have hdata : (buildNarrative records).data =
      joinLines (canonLines 0 records) := rfl
  rw [hdata, splitLines_joinLines hcne hparse.2, hparse.1, List.map_map]
  rfl

theorem append_ne_empty_left {a b : String} (h : a.data ≠ []) :
    a ++ b ≠ "" := by
  intro he
  apply h
  have hd := congrArg String.data he
  rw [String.data_append] at hd
  have hnil : ("" : String).data = [] := rfl
  rw [hnil] at hd
  exact (List.append_eq_nil.mp hd).1

theorem searchUrl_ne_empty (name : String) : searchUrl name ≠ "" :=
  append_ne_empty_left (by decide)

theorem table_vals_ne_empty_extract :
    ∀ p ∈ website_mapping_extract, p.2 ≠ "" := by decide

theorem table_vals_ne_empty_default :
    ∀ p ∈ website_mapping_default, p.2 ≠ "" := by decide

theorem resolveWebsiteExtract_ne_empty (name : String) :
    resolveWebsiteExtract name ≠ "" := by
  rw [resolveWebsiteExtract]
  rcases hdg : dictGet website_mapping_extract name with _ | u
  · simpa using searchUrl_ne_empty name
  · simp only [Option.getD_some]
    rw [dictGet] at hdg
    obtain ⟨p, hfind, hp2⟩ := Option.map_eq_some'.mp hdg
    exact hp2 ▸ table_vals_ne_empty_extract p (List.mem_of_find?_eq_some hfind)

theorem resolveWebsiteDefault_ne_empty (name : String) :
    resolveWebsiteDefault name ≠ "" := by
  rw [resolveWebsiteDefault]
  rcases hdg : dictGet website_mapping_default name with _ | u
  · simpa using searchUrl_ne_empty name
  · simp only [Option.getD_some]
    rw [dictGet] at hdg
    obtain ⟨p, hfind, hp2⟩ := Option.map_eq_some'.mp hdg
    exact hp2 ▸ table_vals_ne_empty_default p (List.mem_of_find?_eq_some hfind)

theorem pyIn_append_middle (sub a c : String) :
    pyIn sub (a ++ sub ++ c) = true := by
  rw [pyIn]
  have hd : (a ++ sub ++ c).data = a.data ++ sub.data ++ c.data := by
    simp [String.data_append]
  rw [hd]
  exact splitOnFirst_isSome_middle _ _ _

theorem scrape_website_url {Html : Type}
    (extract : Html → String → ExtractedFields) (url : String)
    (outcome : FetchOutcome Html) :
    (scrape_website extract url outcome).url = url := by
  cases outcome <;> rfl

theorem scrape_competitor_list_length {Html : Type}
    (extract : Html → String → ExtractedFields)
    (inputs : List (String × FetchOutcome Html)) :
    (scrape_competitor_list extract inputs).length = inputs.length := by
  induction inputs with
  | nil => rfl
  | cons p rest ih =>
    obtain ⟨url, outcome⟩ := p
    simp [scrape_competitor_list, ih]

theorem scrape_competitor_list_map_url {Html : Type}
    (extract : Html → String → ExtractedFields)
    (inputs : List (String × FetchOutcome Html)) :
    (scrape_competitor_list extract inputs).map (fun r => r.url) =
      inputs.map (fun p => normalize_url p.1) := by
  induction inputs with
  | nil => rfl
  | cons p rest ih =>
    obtain ⟨url, outcome⟩ := p
    simp [scrape_competitor_list, scrape_website_url, ih]

theorem scrape_competitor_list_getElem {Html : Type}
    (extract : Html → String → ExtractedFields)
    (inputs : List (String × FetchOutcome Html)) :
    ∀ (i : Nat) (h : i < inputs.length),
      (scrape_competitor_list extract inputs)[i]? =
        some (scrape_website extract (normalize_url (inputs.get ⟨i, h⟩).1)
          (inputs.get ⟨i, h⟩).2) := by
  induction inputs with
  | nil => intro i h; simp at h
  | cons p rest ih =>
    intro i h
    obtain ⟨url, outcome⟩ := p
    cases i with
    | zero => simp [scrape_competitor_list]
    | succ j =>
      have hj : j < rest.length := by simpa using h
      simpa [scrape_competitor_list] using ih j hj

/-! ## Claim theorems -/

/-- C1: every competitor list produced by the reverse parser
(`_extract_competitors_from_analysis`) or by the fallback generator's
structured output (`_get_default_competitors_as_objects`) has length at
most 5, and its `competitor_rank` fields form the contiguous sequence
`1..N` in list order. -/
theorem claim1_rank_invariant (t b l : String) :
    ((_extract_competitors_from_analysis t b l).length ≤ 5 ∧
      (_extract_competitors_from_analysis t b l).map
          (fun r => r.competitor_rank) =
        List.range' 1 (_extract_competitors_from_analysis t b l).length) ∧
    ((_get_default_competitors_as_objects b l).length ≤ 5 ∧
      (_get_default_competitors_as_objects b l).map
          (fun r => r.competitor_rank) =
        List.range' 1 (_get_default_competitors_as_objects b l).length) := by
  have key : ∀ (resolve : String → String) (names : List String),
      (buildRecords resolve b l 0 names).length ≤ names.length ∧
      (buildRecords resolve b l 0 names).map (fun r => r.competitor_rank) =
        List.range' 1 (buildRecords resolve b l 0 names).length := by
    intro resolve names
    refine ⟨Nat.le_of_eq (buildRecords_length _ _ _ _ _), ?_⟩
    rw [buildRecords_map_rank, buildRecords_length]
  constructor
  · show (buildRecords resolveWebsiteExtract b l 0 _).length ≤ 5 ∧ _
    refine ⟨?_, (key resolveWebsiteExtract _).2⟩
    rw [buildRecords_length, List.length_take]
    exact Nat.min_le_left _ _
  · show (buildRecords resolveWebsiteDefault b l 0 _).length ≤ 5 ∧ _
    refine ⟨?_, (key resolveWebsiteDefault _).2⟩
    rw [buildRecords_length, get_default_competitors_length]

/-- C2 counterexample: the claim fails for a record whose name contains the
`" - "` separator.  Building the canonical narrative line
`"1. Foo - Bar - d"` from the single record `("Foo - Bar", "d")` and
re-parsing it yields the name `"Foo"`, not `"Foo - Bar"`: the parser cuts
the name at the first `" - "` occurrence, which here lies inside the name. -/
theorem claim2_roundtrip_counterexample :
    (_extract_competitors_from_analysis (buildNarrative [("Foo - Bar", "d")])
        "coffee" "Islamabad").map (fun r => r.business_name) = ["Foo"] ∧
    (_extract_competitors_from_analysis (buildNarrative [("Foo - Bar", "d")])
        "coffee" "Islamabad").map (fun r => r.business_name) ≠
      ["Foo - Bar"] := ⟨by decide, by decide⟩

/-- C2 amended: re-parsing a canonical narrative built from `1 ≤ N ≤ 5`
records recovers exactly the `N` names in order, provided each name is
longer than 2 characters, carries no surrounding whitespace, contains no
`" - "` substring, does not end in `" -"`, and contains no newline, and
each description is non-empty, carries no surrounding whitespace, and
contains no newline. -/
theorem claim2_roundtrip_amended (records : List (String × String))
    (b l : String) (hne : records ≠ []) (hlen : records.length ≤ 5)
    (hn : ∀ r ∈ records, goodName r.1.data = true)
    (hd : ∀ r ∈ records, goodDesc r.2.data = true) :
    (_extract_competitors_from_analysis (buildNarrative records) b l).map
        (fun r => r.business_name) = records.map (fun r => r.1) := by
  have hnames := extract_names_buildNarrative records hne hlen hn hd
  show (buildRecords resolveWebsiteExtract b l 0
      ((if (extractCompetitorNames (buildNarrative records)).isEmpty then
          _get_default_competitors b l
        else extractCompetitorNames (buildNarrative records)).take 5)).map
      (fun r => r.business_name) = records.map (fun r => r.1)
  rw [hnames]
  have hemp : (records.map (fun r => r.1)).isEmpty = false := by
    cases records
    · exact absurd rfl hne
    · rfl
  rw [hemp]
  simp only [Bool.false_eq_true, if_false]
  rw [List.take_of_length_le (by simpa using hlen)]
  exact buildRecords_map_name _ _ _ _ _

/-- C2 amended witness: a concrete two-record narrative round-trips. -/
theorem claim2_roundtrip_amended_witness :
    (_extract_competitors_from_analysis
        (buildNarrative
          [("Alpha Coffee", "good espresso"), ("Beta Brew", "cozy spot")])
        "coffee" "Islamabad").map (fun r => r.business_name) =
      [("Alpha Coffee", "good espresso"), ("Beta Brew", "cozy spot")].map
        (fun r => (r : String × String).1) :=
  claim2_roundtrip_amended _ "coffee" "Islamabad" (by decide) (by decide)
    (by decide) (by decide)

/-- C3 counterexample: the claim fails as stated, because the reverse
parser assigns ranks by position in the surviving list, not from the number
written in the line.  A narrative consisting of exactly the line
`"3. Monal Restaurant - Popular Pakistani cuisine"` yields the name
`"Monal Restaurant"` with rank 1, and no record with rank 3. -/
theorem claim3_monal_counterexample :
    (_extract_competitors_from_analysis
        "3. Monal Restaurant - Popular Pakistani cuisine" "restaurant"
        "Islamabad").map (fun r => (r.business_name, r.competitor_rank)) =
      [("Monal Restaurant", 1)] ∧
    ∀ r ∈ _extract_competitors_from_analysis
        "3. Monal Restaurant - Popular Pakistani cuisine" "restaurant"
        "Islamabad",
      ¬(r.business_name = "Monal Restaurant" ∧ r.competitor_rank = 3) :=
  ⟨by decide, by decide⟩

/-- C3 amended: the line `"3. Monal Restaurant - Popular Pakistani
cuisine"` parses to the name `"Monal Restaurant"`, and in a narrative where
that line is the third surviving entry the resulting record carries
`business_name = "Monal Restaurant"` and rank 3 (the rank comes from the
entry's position, which for a canonical narrative coincides with the
written number). -/
theorem claim3_monal_amended :
    parseLine "3. Monal Restaurant - Popular Pakistani cuisine".data =
      some "Monal Restaurant".data ∧
    (_extract_competitors_from_analysis
        ("1. Khyber Pass - Afghan cuisine\n2. Des Pardes - Traditional food\n3. Monal Restaurant - Popular Pakistani cuisine")
        "restaurant" "Islamabad").map
      (fun r => (r.business_name, r.competitor_rank)) =
      [("Khyber Pass", 1), ("Des Pardes", 2), ("Monal Restaurant", 3)] :=
  ⟨by decide, by decide⟩

/-- C4: for a narrative none of whose lines is a candidate competitor entry
(after stripping, no line starts with a digit or a bullet), the reverse
parser produces exactly the names of `_get_default_competitors` for the
same business idea and location, in order. -/
theorem claim4_fallback_on_no_candidates (t b l : String)
    (h : ∀ line ∈ splitLines t.data, noCandidate line = true) :
    (_extract_competitors_from_analysis t b l).map
        (fun r => r.business_name) = _get_default_competitors b l := by
  have hnone : extractCompetitorNames t = [] := by
    rw [extractCompetitorNames]
    have hfm : (splitLines t.data).filterMap parseLine = [] :=
      List.filterMap_eq_nil_iff.mpr
        (fun a ha => parseLine_eq_none_of_noCandidate (h a ha))
    rw [hfm]
    rfl
  show (buildRecords resolveWebsiteExtract b l 0
      ((if (extractCompetitorNames t).isEmpty then
          _get_default_competitors b l
        else extractCompetitorNames t).take 5)).map
      (fun r => r.business_name) = _get_default_competitors b l
  rw [hnone]
  simp only [List.isEmpty_nil, if_true]
  rw [List.take_of_length_le (by rw [get_default_competitors_length])]
  exact buildRecords_map_name _ _ _ _ _

/-- C4 witness: a narrative with no numbered or bulleted lines falls back
to the default competitor names. -/
theorem claim4_fallback_on_no_candidates_witness :
    (_extract_competitors_from_analysis
        "The market is highly competitive.\nThere are many options."
        "bakery" "Paris").map (fun r => r.business_name) =
      _get_default_competitors "bakery" "Paris" :=
  claim4_fallback_on_no_candidates _ _ _ (by decide)

/-- C5: for the query `"coffee shop competitors Islamabad"` the fallback
lead generator classifies the category as coffee (business type
`"coffee shop"`) and the location as Islamabad, and its narrative lists
exactly the five Islamabad coffee names ranked 1 to 5. -/
theorem claim5_coffee_islamabad_scenario :
    (_generate_mock_competitors
        "coffee shop competitors Islamabad").business_type = "coffee shop" ∧
    (_generate_mock_competitors
        "coffee shop competitors Islamabad").mock_location = "Islamabad" ∧
    (_generate_mock_competitors
        "coffee shop competitors Islamabad").city_competitors =
      ["Espresso Lounge F-7", "Coffee Wagera", "Café Lazeez",
       "Coffee Bean & Tea Leaf", "Beans & Brews"] ∧
    (_generate_mock_competitors
        "coffee shop competitors Islamabad").competitor_list =
      ["1. Espresso Lounge F-7 - Established coffee shop serving Islamabad",
       "2. Coffee Wagera - Established coffee shop serving Islamabad",
       "3. Café Lazeez - Established coffee shop serving Islamabad",
       "4. Coffee Bean & Tea Leaf - Established coffee shop serving Islamabad",
       "5. Beans & Brews - Established coffee shop serving Islamabad"] := by
  refine ⟨by decide, by decide, by decide, by decide⟩

/-- C6: a fetch that fails with a network-level error makes
`scrape_website` return (rather than raise) a result whose `business_name`
is the fixed `"Unknown"` marker, whose `error` field describes the failure,
and whose other fields carry the unavailable-style sentinels. -/
theorem claim6_scrape_failure_sentinels {Html : Type}
    (extract : Html → String → ExtractedFields) (url errMsg : String) :
    scrape_website extract url (FetchOutcome.failure errMsg) =
      { url := url
        business_name := "Unknown"
        description := "Unable to extract information"
        services := "Unable to extract services"
        contact_info := "Not available"
        address := "Not available"
        pricing_info := "Not available"
        error := some ("Failed to scrape: " ++ errMsg) } := rfl

/-- C7: website resolution is total — for every name, known or unknown,
both resolution tables produce a non-empty `url`, and consequently every
record built by either producer carries a non-empty `url`. -/
theorem claim7_website_resolution_total (t b l name : String) :
    resolveWebsiteExtract name ≠ "" ∧ resolveWebsiteDefault name ≠ "" ∧
    ((_extract_competitors_from_analysis t b l).map (fun r => r.url)).all
        (fun u => !(u == "")) = true ∧
    ((_get_default_competitors_as_objects b l).map (fun r => r.url)).all
        (fun u => !(u == "")) = true := by
  refine ⟨resolveWebsiteExtract_ne_empty name,
    resolveWebsiteDefault_ne_empty name, ?_, ?_⟩
  · show ((buildRecords resolveWebsiteExtract b l 0 _).map
        (fun r => r.url)).all (fun u => !(u == "")) = true
    rw [buildRecords_map_url, List.all_eq_true]
    intro u hu
    obtain ⟨x, _, hx⟩ := List.mem_map.mp hu
    have := resolveWebsiteExtract_ne_empty x
    rw [hx] at this
    simpa using this
  · show ((buildRecords resolveWebsiteDefault b l 0 _).map
        (fun r => r.url)).all (fun u => !(u == "")) = true
    rw [buildRecords_map_url, List.all_eq_true]
    intro u hu
    obtain ⟨x, _, hx⟩ := List.mem_map.mp hu
    have := resolveWebsiteDefault_ne_empty x
    rw [hx] at this
    simpa using this

/-- C8: when any exception interrupts a research run, the returned result
has status `"error"`, an empty competitor list, the message recorded in the
`error` field, and an analysis string that contains the error description;
the exception is not propagated (the embedding is total). -/
theorem claim8_research_error_status (msg b l : String) :
    (research_competitors (RunOutcome.exc msg) b l).status = "error" ∧
    (research_competitors (RunOutcome.exc msg) b l).competitors = [] ∧
    (research_competitors (RunOutcome.exc msg) b l).error = some msg ∧
    pyIn msg ((research_competitors (RunOutcome.exc msg) b l).analysis) =
      true := by
  refine ⟨rfl, rfl, rfl, ?_⟩
  have hshape : (research_competitors (RunOutcome.exc msg) b l).analysis =
      "Error occurred during research: " ++ msg ++ "" := by
    simp [research_competitors]
  rw [hshape]
  exact pyIn_append_middle msg "Error occurred during research: " ""

/-- C9: the orchestrator's tool-calling loop performs at most
`max_iterations = 10` tool-invocation rounds for every model policy, even
one that never produces a final answer — a hard upper bound on rounds, not
a retry count. -/
theorem claim9_agent_loop_bound (policy : List (String × String) → AgentStep) :
    max_iterations = 10 ∧
    (agent_loop policy max_iterations []).1.length ≤ 10 := by
  refine ⟨rfl, ?_⟩
  have hb := agent_loop_length policy max_iterations []
  simpa [max_iterations] using hb

/-- C10: `scrape_competitor_list` returns one result per input URL in
order, never raises (the i-th result is exactly the `scrape_website`
outcome for the i-th input, and a failed fetch yields the sentinel error
record), and fetches every URL under its normalized form, with `https://`
prepended when no scheme is present and that normalized URL recorded in the
result. -/
theorem claim10_scrape_list_structure {Html : Type}
    (extract : Html → String → ExtractedFields)
    (inputs : List (String × FetchOutcome Html)) :
    (scrape_competitor_list extract inputs).length = inputs.length ∧
    ((scrape_competitor_list extract inputs).map (fun r => r.url) =
      inputs.map (fun p => normalize_url p.1)) ∧
    (∀ (i : Nat) (h : i < inputs.length),
      (scrape_competitor_list extract inputs)[i]? =
        some (scrape_website extract (normalize_url (inputs.get ⟨i, h⟩).1)
          (inputs.get ⟨i, h⟩).2)) ∧
    ∀ (i : Nat) (h : i < inputs.length) (e : String),
      (inputs.get ⟨i, h⟩).2 = FetchOutcome.failure e →
      (scrape_competitor_list extract inputs)[i]? =
        some { url := normalize_url (inputs.get ⟨i, h⟩).1
               business_name := "Unknown"
               description := "Unable to extract information"
               services := "Unable to extract services"
               contact_info := "Not available"
               address := "Not available"
               pricing_info := "Not available"
               error := some ("Failed to scrape: " ++ e) } := by
  refine ⟨scrape_competitor_list_length extract inputs,
    scrape_competitor_list_map_url extract inputs,
    scrape_competitor_list_getElem extract inputs, ?_⟩
  intro i h e hfail
  rw [scrape_competitor_list_getElem extract inputs i h, hfail]
  rfl

/-- C10 witness: a schemeless URL whose fetch times out yields the
normalized URL and the sentinel error record. -/
theorem claim10_scrape_list_structure_witness :
    (scrape_competitor_list
        (fun (_ : Unit) (_ : String) =>
          ExtractedFields.mk "" "" "" "" "" "")
        [("example.com", FetchOutcome.failure "timeout")])[0]? =
      some { url := normalize_url "example.com"
             business_name := "Unknown"
             description := "Unable to extract information"
             services := "Unable to extract services"
             contact_info := "Not available"
             address := "Not available"
             pricing_info := "Not available"
             error := some ("Failed to scrape: " ++ "timeout") } :=
  (claim10_scrape_list_structure
      (fun (_ : Unit) (_ : String) => ExtractedFields.mk "" "" "" "" "" "")
      [("example.com", FetchOutcome.failure "timeout")]).2.2.2
    0 (by decide) "timeout" rfl
